import Mathlib

/-!
Verification of the india_news_forward crawler against its specification

This file gives a shallow embedding, in Lean 4, of the extraction and
ranking logic of `news_crawler_updated.py` and of the message formatter of
`news_forwarder.py`, and proves (or refutes) the frozen claims about that
logic.

Modelling conventions:
* Python `str.strip()` is modelled by `pyStrip` (drop leading/trailing
  whitespace characters); `str.split(sep)` with a one-character separator is
  modelled by `splitChar`; `re.search(r"(\d+)", s)` followed by `int(...)` is
  modelled by `digitRunValue` (leftmost maximal ASCII digit run).
* A BeautifulSoup page is modelled by a structure holding, for each
  `soup.find(...)` call the adapter performs, the result of that call:
  `none` when the locator matches no element, `some text` when it matches an
  element with the given text (for a `meta` candidate, `some attr` where
  `attr` is the optional `content` attribute).  A found element is treated
  as truthy.
* `random.randint(a, b)` draws are passed in as explicit integer arguments;
  where a claim depends on the range of a draw, the range `a ≤ r ≤ b` is a
  hypothesis.
* Timestamps (`datetime.now().isoformat()`) are passed in as an explicit
  `now` argument.
-/

/-! ## Python text primitives -/

/-- Model of Python `str.strip()` on a list of characters: remove leading and
trailing whitespace. -/
def pyStripL (cs : List Char) : List Char :=
  ((cs.dropWhile Char.isWhitespace).reverse.dropWhile Char.isWhitespace).reverse

/-- Model of Python `str.strip()` on strings. -/
def pyStrip (s : String) : String := ⟨pyStripL s.data⟩

/-- Model of Python `str.split(sep)` for a one-character separator `sep`:
splitting `""` yields `[""]`, adjacent separators yield empty groups. -/
def splitChar (sep : Char) : List Char → List (List Char)
  | [] => [[]]
  | c :: cs =>
    match splitChar sep cs with
    | [] => [[]]
    | g :: gs => if c = sep then [] :: g :: gs else (c :: g) :: gs

/-- The leftmost maximal run of ASCII digits in a character list, if any
(model of `re.search(r"(\d+)", s)`). -/
def firstDigitRunL : List Char → Option (List Char)
  | [] => none
  | c :: rest =>
    if c.isDigit then some (c :: rest.takeWhile Char.isDigit)
    else firstDigitRunL rest

/-- Numeric value of a list of ASCII digit characters (model of `int(...)`
applied to a digit string). -/
def digitsToNat (cs : List Char) : Nat :=
  cs.foldl (fun a c => a * 10 + (c.toNat - 48)) 0

/-- Value of the leftmost digit run of a string, if any. -/
def digitRunValue (s : String) : Option Nat :=
  (firstDigitRunL s.data).map digitsToNat

/-! ## Selector fallback chains

In `TimesOfIndiaScraper.parse_article` and `HindustanTimesScraper.parse_article`
each field is extracted by a loop of the form

    field = <initial value>
    for candidate in candidates:
        if candidate:
            if candidate.name == 'meta':
                field = candidate.get('content', '').strip()
            else:
                field = candidate.text.strip()
            if field:
                break

Note that a matching candidate assigns its (possibly blank) value to the
accumulator before the non-emptiness test. -/

/-- A candidate element found by one locator of a fallback chain: an ordinary
element carrying its text, or a `meta` tag carrying its optional `content`
attribute. -/
inductive Cand where
  | elem (text : String)
  | meta (content : Option String)
deriving DecidableEq, Repr

/-- The value a matching candidate contributes: the trimmed `content`
attribute for a `meta` tag, the trimmed element text otherwise. -/
def candValue : Cand → String
  | .elem t => pyStrip t
  | .meta c => pyStrip (c.getD "")

/-- The fallback-chain loop: `none` entries (locator matched nothing) are
skipped without touching the accumulator; a matching candidate overwrites the
accumulator with its value and the loop stops at the first non-empty value. -/
def fallbackChain : List (Option Cand) → String → String
  | [], acc => acc
  | none :: rest, acc => fallbackChain rest acc
  | some c :: rest, _acc =>
    if candValue c = "" then fallbackChain rest (candValue c) else candValue c

/-- The value of the first candidate that both matches and has a non-empty
trimmed value, if any. -/
def firstSuccess (cands : List (Option Cand)) : Option String :=
  cands.findSome? fun oc =>
    oc.bind fun c => if candValue c = "" then none else some (candValue c)

/-! ## The article record -/

/-- The dictionary returned by each adapter's `parse_article` (all keys are
always set; `crawled_at` is the caller-supplied timestamp). -/
structure Article where
  id : String
  url : String
  title : String
  content : String
  published_date : String
  category : String
  source : String
  views : Int
  crawled_at : String
deriving DecidableEq, Repr

/-- The Times of India title sentinel `"제목 없음"` (Korean for "no title"),
assigned before the title fallback chain runs. -/
def noTitle : String := "제목 없음"

/-! ## URL-derived fields -/

/-- `url.split('/')[-1].split('.')[0]` (Times of India and Economic Times
article id derivation). -/
def toiArticleId (url : String) : String :=
  ⟨(splitChar '.' ((splitChar '/' url.data).getLastD [])).headD []⟩

/-- `url.split('-')[-1].split('.')[0]` (Hindustan Times article id
derivation). -/
def htArticleId (url : String) : String :=
  ⟨(splitChar '.' ((splitChar '-' url.data).getLastD [])).headD []⟩

/-- `url.split('/')[3] if len(url.split('/')) > 3 else ""` (category
derivation, identical in all adapters). -/
def urlCategory (url : String) : String :=
  let parts := splitChar '/' url.data
  if 3 < parts.length then ⟨parts.getD 3 []⟩ else ""

/-! ## View estimators -/

/-- Lower-case the text and textually replace `k` by `000` and `m` by
`000000` (`views_text.lower().replace('k', '000').replace('m', '000000')`;
the two `replace` calls cannot interfere because `000` contains no `m`). -/
def normalizeViewsL (cs : List Char) : List Char :=
  (cs.map Char.toLower).flatMap fun c =>
    if c = 'k' then ['0', '0', '0']
    else if c = 'm' then ['0', '0', '0', '0', '0', '0'] else [c]

/-- Tier-1 parse of the Times of India counter text: strip, normalize unit
suffixes, then take the leftmost digit run. -/
def toiTier1 (text : String) : Option Nat :=
  digitRunValue ⟨normalizeViewsL (pyStripL text.data)⟩

/-- Tier-1 parse of the Hindustan Times / Economic Times counter text:
strip, then take the leftmost digit run (no unit normalization). -/
def plainTier1 (text : String) : Option Nat :=
  digitRunValue (pyStrip text)

/-- `article_id` of the Times of India URL when it is a non-empty all-digit
string (`article_id.isdigit()`), else `none`. -/
def toiUrlDigits (url : String) : Option (List Char) :=
  let idc := (toiArticleId url).data
  if idc ≠ [] ∧ idc.all Char.isDigit then some idc else none

/-- `cs` with the suffix `suf` removed when present (model of the optional
`(?:\.html)?$` / `(?:\.cms)?$` part of the id regexes). -/
def stripSuffixL (suf cs : List Char) : List Char :=
  if cs.reverse.take suf.length = suf.reverse then cs.take (cs.length - suf.length)
  else cs

/-- The group captured by `re.search(r'(\d+)(?:SUF)?$', url)`: the maximal
trailing digit run of the URL after removing an optional suffix `suf`,
required non-empty. -/
def trailingDigits (suf : List Char) (url : String) : Option (List Char) :=
  let cs := stripSuffixL suf url.data
  let run := (cs.reverse.takeWhile Char.isDigit).reverse
  if run = [] then none else some run

/-- The last `k` characters of `cs` (Python `s[-k:]`). -/
def lastChars (k : Nat) (cs : List Char) : List Char :=
  cs.drop (cs.length - k)

/-- The Times of India article page, as the results of the `soup.find` calls
`parse_article` and `extract_views` perform.  `t…` fields are the five title
candidates, `c…` the five content candidates, `d…` the three date candidates,
`v…` the two view-counter candidates.  A `meta` candidate is
`Option (Option String)`: found or not, and if found its optional `content`
attribute. -/
structure ToiPage where
  t23498 : Option String
  t1Y96 : Option String
  tTitleClass : Option String
  tH1 : Option String
  tOgTitle : Option (Option String)
  c3YYSt : Option String
  cGaArticle : Option String
  cArticleContent : Option String
  cArticleText : Option String
  cNormal : Option String
  d3Mkg : Option String
  dByline : Option String
  dPubTime : Option (Option String)
  v1Akb : Option String
  vViewCount : Option String
deriving DecidableEq, Repr

/-- The Hindustan Times article page, as the results of its `soup.find`
calls. -/
structure HtPage where
  tHdg1 : Option String
  tHeadline : Option String
  tH1 : Option String
  tOgTitle : Option (Option String)
  cStoryDetail : Option String
  cStoryDetails : Option String
  cArticleBody : Option String
  cItempropBody : Option String
  dDateTime : Option String
  dArticleTime : Option String
  dPubTime : Option (Option String)
  vViewCount : Option String
deriving DecidableEq, Repr

/-- The Economic Times article page; only its view-counter element is needed
by the claims (its `parse_article` has no fallback chains). -/
structure EtPage where
  vViewCount : Option String
deriving DecidableEq, Repr

/-- `TimesOfIndiaScraper.extract_views`.  `r2` models
`random.randint(50000, 200000)` and `r3` models
`random.randint(100000, 500000)`; the exception handler returns the same
default-range draw as tier 3 and is unreachable in this pure model.  The
counter element is `find('div', class_='_1_Akb') or find('div',
class_='view-count')`: the first found element is used. -/
def toiExtractViews (p : ToiPage) (url : String) (r2 r3 : Int) : Int :=
  match (p.v1Akb <|> p.vViewCount).bind toiTier1 with
  | some n => (n : Int)
  | none =>
    match toiUrlDigits url with
    | some idc => (digitsToNat (lastChars 4 idc) : Int) * 100 + r2
    | none => r3

/-- `HindustanTimesScraper.extract_views`.  `r2` models
`random.randint(50, 500)` and `r3` models `random.randint(100, 2000)`. -/
def htExtractViews (p : HtPage) (url : String) (r2 r3 : Int) : Int :=
  match p.vViewCount.bind plainTier1 with
  | some n => (n : Int)
  | none =>
    match trailingDigits ".html".data url with
    | some idc => (digitsToNat (lastChars 2 idc) : Int) * 10 + r2
    | none => r3

/-- `EconomicTimesScraper.extract_views`.  `r2` models
`random.randint(100, 1000)` and `r3` models `random.randint(100, 3000)`. -/
def etExtractViews (p : EtPage) (url : String) (r2 r3 : Int) : Int :=
  match p.vViewCount.bind plainTier1 with
  | some n => (n : Int)
  | none =>
    match trailingDigits ".cms".data url with
    | some idc => (digitsToNat (lastChars 3 idc) : Int) * 5 + r2
    | none => r3

/-! ## Adapter `parse_article` -/

/-- The five Times of India title candidates, in source order (four `h1`
finds, then the `og:title` meta tag). -/
def toiTitleCands (p : ToiPage) : List (Option Cand) :=
  [p.t23498.map Cand.elem, p.t1Y96.map Cand.elem, p.tTitleClass.map Cand.elem,
   p.tH1.map Cand.elem, p.tOgTitle.map Cand.meta]

/-- The five Times of India content candidates (all ordinary elements; the
content loop reads `candidate.text.strip()` unconditionally). -/
def toiContentCands (p : ToiPage) : List (Option Cand) :=
  [p.c3YYSt.map Cand.elem, p.cGaArticle.map Cand.elem,
   p.cArticleContent.map Cand.elem, p.cArticleText.map Cand.elem,
   p.cNormal.map Cand.elem]

/-- The three Times of India date candidates (two elements, then the
`article:published_time` meta tag). -/
def toiDateCands (p : ToiPage) : List (Option Cand) :=
  [p.d3Mkg.map Cand.elem, p.dByline.map Cand.elem, p.dPubTime.map Cand.meta]

/-- The four Hindustan Times title candidates. -/
def htTitleCands (p : HtPage) : List (Option Cand) :=
  [p.tHdg1.map Cand.elem, p.tHeadline.map Cand.elem, p.tH1.map Cand.elem,
   p.tOgTitle.map Cand.meta]

/-- The four Hindustan Times content candidates. -/
def htContentCands (p : HtPage) : List (Option Cand) :=
  [p.cStoryDetail.map Cand.elem, p.cStoryDetails.map Cand.elem,
   p.cArticleBody.map Cand.elem, p.cItempropBody.map Cand.elem]

/-- The three Hindustan Times date candidates. -/
def htDateCands (p : HtPage) : List (Option Cand) :=
  [p.dDateTime.map Cand.elem, p.dArticleTime.map Cand.elem,
   p.dPubTime.map Cand.meta]

/-- The record `TimesOfIndiaScraper.parse_article` builds from a fetched
page (the body of its `try` block; no statement in it raises in this pure
model, so the `except → None` path corresponds only to a failed fetch, see
`toiParse`). -/
def toiParseArticle (p : ToiPage) (url : String) (r2 r3 : Int) (now : String) :
    Article :=
  { id := toiArticleId url
    url := url
    title := fallbackChain (toiTitleCands p) noTitle
    content := fallbackChain (toiContentCands p) ""
    published_date := fallbackChain (toiDateCands p) ""
    category := urlCategory url
    source := "Times of India"
    views := toiExtractViews p url r2 r3
    crawled_at := now }

/-- `TimesOfIndiaScraper.parse_article`: `None` when the fetch failed
(`get_soup` returned `None`), otherwise the parsed record. -/
def toiParse (soup : Option ToiPage) (url : String) (r2 r3 : Int)
    (now : String) : Option Article :=
  soup.map fun p => toiParseArticle p url r2 r3 now

/-- The record `HindustanTimesScraper.parse_article` builds from a fetched
page. -/
def htParseArticle (p : HtPage) (url : String) (r2 r3 : Int) (now : String) :
    Article :=
  { id := htArticleId url
    url := url
    title := fallbackChain (htTitleCands p) noTitle
    content := fallbackChain (htContentCands p) ""
    published_date := fallbackChain (htDateCands p) ""
    category := urlCategory url
    source := "Hindustan Times"
    views := htExtractViews p url r2 r3
    crawled_at := now }

/-- `HindustanTimesScraper.parse_article`. -/
def htParse (soup : Option HtPage) (url : String) (r2 r3 : Int)
    (now : String) : Option Article :=
  soup.map fun p => htParseArticle p url r2 r3 now

/-- The file names `IndiaNewsCrawler._save_raw_data` writes: one
`<id>.json` per article (the `id` key is always present in an adapter
record, so the `str(int(time.time()))` default is never used; a non-empty
dict is truthy, so no record is skipped). -/
def savedFilenames (articles : List Article) : List String :=
  articles.map fun a => a.id ++ ".json"

/-! ## Crawl orchestration -/

/-- `BaseScraper.crawl_articles`: the list of article URLs whose parse is
attempted — the discovered URLs truncated to `max_articles` (the early
return on an empty discovery list coincides with the general path). -/
def attemptedUrls (articleUrls : List String) (maxArticles : Nat) :
    List String :=
  if articleUrls = [] then [] else articleUrls.take maxArticles

/-- `BaseScraper.crawl_articles`: parse each attempted URL in order,
keeping the successful records; `parseFn` stands for `self.parse_article`
together with the page environment.  The politeness sleep has no effect on
the result and is not modelled. -/
def crawlArticles {α : Type} (parseFn : String → Option α)
    (articleUrls : List String) (maxArticles : Nat) : List α :=
  if articleUrls = [] then []
  else (articleUrls.take maxArticles).filterMap parseFn

/-! ## Ranking by views

`IndiaNewsCrawler.sort_articles_by_views` sorts arbitrary loaded records
(JSON dicts) with `sorted(articles, key=lambda x: x.get('views', 0),
reverse=True)` — a stable descending sort on the `views` key, a record
without a `views` key counting as 0.  Python's stable descending sort is
modelled by the insertion sort below, which places an element after every
already-placed element of greater-or-equal key (already-placed elements
come earlier in the input, so ties keep input order). -/

/-- A loaded record as the sort sees it: an optional `views` entry plus the
rest of the dict (opaque here). -/
structure JRec where
  viewsEntry : Option Int
  payload : String
deriving DecidableEq, Repr

/-- `x.get('views', 0)`. -/
def viewsKey (r : JRec) : Int := r.viewsEntry.getD 0

/-- Insert `x` into a descending-sorted list, after every element with key
`≥ viewsKey x`. -/
def insertByViews (x : JRec) : List JRec → List JRec
  | [] => [x]
  | y :: ys =>
    if viewsKey x ≥ viewsKey y then x :: y :: ys else y :: insertByViews x ys

/-- `IndiaNewsCrawler.sort_articles_by_views` (for an explicitly supplied
record list). -/
def sortArticlesByViews : List JRec → List JRec
  | [] => []
  | x :: xs => insertByViews x (sortArticlesByViews xs)

/-- `IndiaNewsCrawler.get_top_articles`: sort, then truncate to `limit`. -/
def getTopArticles (limit : Nat) (articles : List JRec) : List JRec :=
  (sortArticlesByViews articles).take limit

/-! ## The view-count abbreviation formatter

`format_article_message` computes

    if view_count >= 1000000: f"{view_count/1000000:.1f}M"
    elif view_count >= 1000:  f"{view_count/1000:.1f}K"
    else:                     f"{view_count}"

`view_count/1000` is Python true division of integers: the IEEE-754 double
nearest to the exact quotient (53-bit significand, round to nearest, ties to
even).  `:.1f` renders the exact decimal value of that double rounded to one
fractional digit, ties to even.  Both roundings are modelled exactly with
integer arithmetic below (double overflow is not modelled; every view count
produced by `extract_views` is far below it). -/

/-- Round `a / b` to the nearest natural number, ties to even (`b > 0`). -/
def roundHalfEvenDiv (a b : Nat) : Nat :=
  let q := a / b
  let r := a % b
  if 2 * r < b then q
  else if b < 2 * r then q + 1
  else if q % 2 = 0 then q else q + 1

/-- `⌊log₂ n⌋` for `n ≥ 1` (0 at 0), by fuel recursion so that the kernel
can evaluate it. -/
def log2Fuel : Nat → Nat → Nat
  | 0, _ => 0
  | fuel + 1, n => if n ≤ 1 then 0 else log2Fuel fuel (n / 2) + 1

/-- `⌊log₂ n⌋` (0 at 0). -/
def log2Floor (n : Nat) : Nat := log2Fuel n n

/-- Ten times the IEEE-754 binary64 double nearest to `v / d`, rounded to
the nearest integer with ties to even — the numeric content of
`f"{v/d:.1f}"` for `v ≥ d ≥ 1`: the double is the unique
`m · 2^(e-52)` with `m = round-to-even(v·2^(52-e) / d)` where
`2^e ≤ v/d < 2^(e+1)`, and `:.1f` rounds its exact decimal value once
more, ties to even. -/
def oneDecimalOfDiv (v d : Nat) : Nat :=
  let e := log2Floor (v / d)
  if e ≤ 52 then
    let m := roundHalfEvenDiv (v * 2 ^ (52 - e)) d
    roundHalfEvenDiv (m * 10) (2 ^ (52 - e))
  else
    let m := roundHalfEvenDiv v (d * 2 ^ (e - 52))
    m * 2 ^ (e - 52) * 10

/-- `f"{v/d:.1f}"`: the one-decimal digits split as `<int>.<digit>`. -/
def oneDecimalStr (v d : Nat) : String :=
  let n := oneDecimalOfDiv v d
  toString (n / 10) ++ "." ++ toString (n % 10)

/-- The view-count string of `format_article_message`. -/
def formatViews (v : Nat) : String :=
  if v ≥ 1000000 then oneDecimalStr v 1000000 ++ "M"
  else if v ≥ 1000 then oneDecimalStr v 1000 ++ "K"
  else toString v

/-! ## Fallback-chain lemmas -/

theorem firstSuccess_nil : firstSuccess [] = none := rfl

theorem firstSuccess_cons_none (rest : List (Option Cand)) :
    firstSuccess (none :: rest) = firstSuccess rest := by
  simp [firstSuccess]

theorem firstSuccess_cons_some (c : Cand) (rest : List (Option Cand)) :
    firstSuccess (some c :: rest) =
      if candValue c = "" then firstSuccess rest else some (candValue c) := by
  by_cases hc : candValue c = "" <;> simp [firstSuccess, hc]

/-- If some candidate matches with a non-empty trimmed value, the chain
returns the first such value, whatever the initial accumulator. -/
theorem fallbackChain_eq_of_firstSuccess (cands : List (Option Cand))
    (init v : String) (h : firstSuccess cands = some v) :
    fallbackChain cands init = v := by
  induction cands generalizing init with
  | nil => simp [firstSuccess] at h
  | cons oc rest ih =>
    cases oc with
    | none =>
      rw [firstSuccess_cons_none] at h
      simpa [fallbackChain] using ih init h
    | some c =>
      rw [firstSuccess_cons_some] at h
      by_cases hc : candValue c = ""
      · rw [if_pos hc] at h
        simpa [fallbackChain, hc] using ih (candValue c) h
      · rw [if_neg hc] at h
        rw [Option.some_inj] at h
        show (if candValue c = "" then fallbackChain rest (candValue c)
              else candValue c) = v
        rw [if_neg hc]
        exact h

/-- If no candidate matches with a non-empty trimmed value, the chain
returns the initial accumulator when nothing matched at all, and the empty
string as soon as at least one (necessarily blank) candidate matched. -/
theorem fallbackChain_eq_of_no_success (cands : List (Option Cand))
    (init : String) (h : firstSuccess cands = none) :
    fallbackChain cands init = if cands.any Option.isSome then "" else init := by
  induction cands generalizing init with
  | nil => simp [fallbackChain]
  | cons oc rest ih =>
    cases oc with
    | none =>
      rw [firstSuccess_cons_none] at h
      simpa [fallbackChain] using ih init h
    | some c =>
      rw [firstSuccess_cons_some] at h
      by_cases hc : candValue c = ""
      · rw [if_pos hc] at h
        have := ih "" h
        simp [fallbackChain, hc, this]
      · rw [if_neg hc] at h
        exact absurd h (by simp)

/-! ## Claims C1 and C2: fallback-chain behaviour -/

/-- C1: In every field-extraction fallback chain (title, content, date of
both chain-using adapters), a candidate that matches with a blank trimmed
value is passed over, and the chain's result is the value of the first
candidate that both matches and yields a non-empty trimmed string (the
`content` attribute for a meta candidate, the trimmed text otherwise) —
whatever the initial accumulator. -/
theorem c1_fallback_chain_first_nonblank_wins :
    (∀ (cands : List (Option Cand)) (init v : String),
      firstSuccess cands = some v → fallbackChain cands init = v) ∧
    (∀ (c : Cand) (rest : List (Option Cand)) (init : String),
      candValue c = "" →
        fallbackChain (some c :: rest) init = fallbackChain rest "") ∧
    (∀ (p : ToiPage) (url : String) (r2 r3 : Int) (now v : String),
      firstSuccess (toiTitleCands p) = some v →
        (toiParseArticle p url r2 r3 now).title = v) ∧
    (∀ (p : HtPage) (url : String) (r2 r3 : Int) (now v : String),
      firstSuccess (htContentCands p) = some v →
        (htParseArticle p url r2 r3 now).content = v) := by
  refine ⟨fallbackChain_eq_of_firstSuccess, ?_, ?_, ?_⟩
  · intro c rest init hc
    show (if candValue c = "" then fallbackChain rest (candValue c)
          else candValue c) = _
    rw [if_pos hc, hc]
  · intro p url r2 r3 now v h
    exact fallbackChain_eq_of_firstSuccess _ _ _ h
  · intro p url r2 r3 now v h
    exact fallbackChain_eq_of_firstSuccess _ _ _ h

/-- Witness for C1 at the spec's own example: title candidates
`[A(blank), B("Monsoon hits Kerala")]` give `"Monsoon hits Kerala"`, not the
sentinel and not the blank. -/
theorem c1_witness :
    firstSuccess [some (Cand.elem " "), some (Cand.elem "Monsoon hits Kerala")] =
      some "Monsoon hits Kerala" ∧
    fallbackChain [some (Cand.elem " "), some (Cand.elem "Monsoon hits Kerala")]
      noTitle = "Monsoon hits Kerala" :=
  ⟨by decide,
   c1_fallback_chain_first_nonblank_wins.1 _ noTitle _ (by decide)⟩

/-- A Times of India page on which exactly one title candidate matches, with
blank text, and nothing else matches. -/
def blankTitleToiPage : ToiPage :=
  { t23498 := none, t1Y96 := none, tTitleClass := none, tH1 := some " ",
    tOgTitle := none, c3YYSt := none, cGaArticle := none,
    cArticleContent := none, cArticleText := none, cNormal := none,
    d3Mkg := none, dByline := none, dPubTime := none, v1Akb := none,
    vViewCount := none }

/-- Counterexample to C2 as stated: on a page where a title candidate
matches but every matching candidate is blank (so no rule succeeds), the
parsed title is the empty string — the blank value overwrote the sentinel —
not the `"제목 없음"` ("no title") sentinel. -/
theorem c2_counterexample :
    firstSuccess (toiTitleCands blankTitleToiPage) = none ∧
    (toiParseArticle blankTitleToiPage
      "https://timesofindia.indiatimes.com/india/articleshow/9.cms"
      0 0 "t").title = "" ∧
    (toiParseArticle blankTitleToiPage
      "https://timesofindia.indiatimes.com/india/articleshow/9.cms"
      0 0 "t").title ≠ noTitle := by
  refine ⟨by decide, by decide, by decide⟩

/-- C2 as amended: when no rule of a chain succeeds, the field equals the
initial value (the `"제목 없음"` sentinel for title, `""` for content and
date) only if no candidate matched at all; as soon as some candidate matched
(necessarily blank), the field is the empty string — so content and date are
`""` in every no-success case, while the title keeps the sentinel only when
no title candidate matched. -/
theorem c2_no_success_field_values :
    (∀ (cands : List (Option Cand)) (init : String),
      firstSuccess cands = none →
        fallbackChain cands init =
          if cands.any Option.isSome then "" else init) ∧
    (∀ (p : ToiPage) (url : String) (r2 r3 : Int) (now : String),
      firstSuccess (toiTitleCands p) = none →
        (toiParseArticle p url r2 r3 now).title =
          if (toiTitleCands p).any Option.isSome then "" else noTitle) ∧
    (∀ (p : ToiPage) (url : String) (r2 r3 : Int) (now : String),
      firstSuccess (toiContentCands p) = none →
        (toiParseArticle p url r2 r3 now).content = "") ∧
    (∀ (p : HtPage) (url : String) (r2 r3 : Int) (now : String),
      firstSuccess (htTitleCands p) = none →
        (htParseArticle p url r2 r3 now).title =
          if (htTitleCands p).any Option.isSome then "" else noTitle) ∧
    (∀ (p : HtPage) (url : String) (r2 r3 : Int) (now : String),
      firstSuccess (htDateCands p) = none →
        (htParseArticle p url r2 r3 now).published_date = "") := by
  refine ⟨fallbackChain_eq_of_no_success, ?_, ?_, ?_, ?_⟩
  · intro p url r2 r3 now h
    exact fallbackChain_eq_of_no_success _ _ h
  · intro p url r2 r3 now h
    rw [show (toiParseArticle p url r2 r3 now).content =
          fallbackChain (toiContentCands p) "" from rfl,
        fallbackChain_eq_of_no_success _ _ h, ite_self]
  · intro p url r2 r3 now h
    exact fallbackChain_eq_of_no_success _ _ h
  · intro p url r2 r3 now h
    rw [show (htParseArticle p url r2 r3 now).published_date =
          fallbackChain (htDateCands p) "" from rfl,
        fallbackChain_eq_of_no_success _ _ h, ite_self]

/-- Witness for the amended C2 on the blank-title page. -/
theorem c2_witness :
    (toiParseArticle blankTitleToiPage "u" 0 0 "t").title = "" := by
  rw [c2_no_success_field_values.2.1 blankTitleToiPage "u" 0 0 "t" (by decide)]
  decide

/-! ## Claim C3: tier 1 of the view estimator -/

/-- A Times of India page whose first counter locator (`div._1_Akb`)
matches an element with unparsable text while the second (`div.view-count`)
matches one with parsable text. -/
def twoCounterToiPage : ToiPage :=
  { t23498 := none, t1Y96 := none, tTitleClass := none, tH1 := none,
    tOgTitle := none, c3YYSt := none, cGaArticle := none,
    cArticleContent := none, cArticleText := none, cNormal := none,
    d3Mkg := none, dByline := none, dPubTime := none,
    v1Akb := some "views", vViewCount := some "123" }

/-- Counterexample to C3 as stated: `twoCounterToiPage` contains an
on-page counter element (matching the `view-count` locator) whose text
parses to 123, yet `extract_views` ignores it — Python's
`find(A) or find(B)` keeps only the first found element, whose text has no
digits — and falls through to the URL-identifier tier, returning
`999 * 100 + 50000 = 149900`. -/
theorem c3_counterexample :
    twoCounterToiPage.vViewCount = some "123" ∧
    toiTier1 "123" = some 123 ∧
    toiExtractViews twoCounterToiPage
      "https://timesofindia.indiatimes.com/articleshow/999.cms"
      50000 100000 = 149900 ∧
    toiExtractViews twoCounterToiPage
      "https://timesofindia.indiatimes.com/articleshow/999.cms"
      50000 100000 ≠ 123 := by
  refine ⟨rfl, by decide, by decide, by decide⟩

/-- C3 as amended: whenever the counter element the adapter selects — its
first matching counter locator; Times of India consults `div.view-count`
only when `div._1_Akb` matches nothing — has text with a parsable numeric
substring, every adapter's `extract_views` returns that tier-1 value, and
the URL-identifier tier and the random fallback are never consulted,
whatever the URL and whatever the random draws. -/
theorem c3_selected_counter_tier1_wins :
    (∀ (p : ToiPage) (url t : String) (r2 r3 : Int) (n : Nat),
      (p.v1Akb <|> p.vViewCount) = some t → toiTier1 t = some n →
        toiExtractViews p url r2 r3 = n) ∧
    (∀ (p : HtPage) (url t : String) (r2 r3 : Int) (n : Nat),
      p.vViewCount = some t → plainTier1 t = some n →
        htExtractViews p url r2 r3 = n) ∧
    (∀ (p : EtPage) (url t : String) (r2 r3 : Int) (n : Nat),
      p.vViewCount = some t → plainTier1 t = some n →
        etExtractViews p url r2 r3 = n) := by
  refine ⟨?_, ?_, ?_⟩
  · intro p url t r2 r3 n hsel htier
    unfold toiExtractViews
    rw [hsel]
    simp [htier]
  · intro p url t r2 r3 n hsel htier
    unfold htExtractViews
    rw [hsel]
    simp [htier]
  · intro p url t r2 r3 n hsel htier
    unfold etExtractViews
    rw [hsel]
    simp [htier]

/-- Witness for the amended C3: a Times of India page whose selected
counter reads `"12k views"` yields 12000 directly, for an arbitrary URL and
arbitrary random draws. -/
theorem c3_witness :
    toiExtractViews
      { t23498 := none, t1Y96 := none, tTitleClass := none, tH1 := none,
        tOgTitle := none, c3YYSt := none, cGaArticle := none,
        cArticleContent := none, cArticleText := none, cNormal := none,
        d3Mkg := none, dByline := none, dPubTime := none,
        v1Akb := some "12k views", vViewCount := none }
      "https://timesofindia.indiatimes.com/articleshow/999.cms" 7 9 = 12000 :=
  c3_selected_counter_tier1_wins.1 _ _ "12k views" 7 9 12000 rfl (by decide)

/-! ## Claim C4: the view estimator is total and non-negative -/

/-- C4: For every adapter, every page and every URL, `extract_views` is a
total function into the integers (never `None`), and its value is
non-negative whenever the random draws lie in the ranges the source passes
to `random.randint` (tier 2 and tier 3 / error ranges of each adapter). -/
theorem c4_extract_views_nonneg
    (pt : ToiPage) (ph : HtPage) (pe : EtPage) (u1 u2 u3 : String)
    (a2 a3 b2 b3 c2 c3 : Int)
    (ha2l : 50000 ≤ a2) (_ha2h : a2 ≤ 200000)
    (ha3l : 100000 ≤ a3) (_ha3h : a3 ≤ 500000)
    (hb2l : 50 ≤ b2) (_hb2h : b2 ≤ 500)
    (hb3l : 100 ≤ b3) (_hb3h : b3 ≤ 2000)
    (hc2l : 100 ≤ c2) (_hc2h : c2 ≤ 1000)
    (hc3l : 100 ≤ c3) (_hc3h : c3 ≤ 3000) :
    0 ≤ toiExtractViews pt u1 a2 a3 ∧
    0 ≤ htExtractViews ph u2 b2 b3 ∧
    0 ≤ etExtractViews pe u3 c2 c3 := by
  refine ⟨?_, ?_, ?_⟩
  · unfold toiExtractViews
    split
    · exact Int.natCast_nonneg _
    · split
      · rename_i idc heq
        have h : (0 : Int) ≤ (digitsToNat (lastChars 4 idc) : Int) * 100 :=
          mul_nonneg (Int.natCast_nonneg _) (by norm_num)
        linarith
      · linarith
  · unfold htExtractViews
    split
    · exact Int.natCast_nonneg _
    · split
      · rename_i idc heq
        have h : (0 : Int) ≤ (digitsToNat (lastChars 2 idc) : Int) * 10 :=
          mul_nonneg (Int.natCast_nonneg _) (by norm_num)
        linarith
      · linarith
  · unfold etExtractViews
    split
    · exact Int.natCast_nonneg _
    · split
      · rename_i idc heq
        have h : (0 : Int) ≤ (digitsToNat (lastChars 3 idc) : Int) * 5 :=
          mul_nonneg (Int.natCast_nonneg _) (by norm_num)
        linarith
      · linarith

/-- Witness for C4 at a concrete page, URL and in-range draws for each
adapter. -/
theorem c4_witness :
    0 ≤ toiExtractViews blankTitleToiPage
        "https://timesofindia.indiatimes.com/articleshow/123.cms"
        60000 200000 ∧
    0 ≤ htExtractViews
        { tHdg1 := none, tHeadline := none, tH1 := none, tOgTitle := none,
          cStoryDetail := none, cStoryDetails := none, cArticleBody := none,
          cItempropBody := none, dDateTime := none, dArticleTime := none,
          dPubTime := none, vViewCount := none }
        "https://www.hindustantimes.com/story-42.html" 50 100 ∧
    0 ≤ etExtractViews { vViewCount := some "7 views" }
        "https://economictimes.indiatimes.com/articleshow/5.cms" 100 100 := by
  have h := c4_extract_views_nonneg blankTitleToiPage
    { tHdg1 := none, tHeadline := none, tH1 := none, tOgTitle := none,
      cStoryDetail := none, cStoryDetails := none, cArticleBody := none,
      cItempropBody := none, dDateTime := none, dArticleTime := none,
      dPubTime := none, vViewCount := none }
    { vViewCount := some "7 views" }
    "https://timesofindia.indiatimes.com/articleshow/123.cms"
    "https://www.hindustantimes.com/story-42.html"
    "https://economictimes.indiatimes.com/articleshow/5.cms"
    60000 200000 50 100 100 100
    (by decide) (by decide) (by decide) (by decide) (by decide) (by decide)
    (by decide) (by decide) (by decide) (by decide) (by decide) (by decide)
  exact h

/-! ## Claim C5: unit-suffix normalization of the Times of India counter -/

/-- The decimal digit character of value `d`. -/
def decimalDigit (d : Fin 10) : Char := Char.ofNat (48 + d.val)

theorem decimalDigit_props (d : Fin 10) :
    (decimalDigit d).isWhitespace = false ∧
    (decimalDigit d).toLower = decimalDigit d ∧
    decimalDigit d ≠ 'k' ∧ decimalDigit d ≠ 'm' ∧
    (decimalDigit d).isDigit = true := by
  fin_cases d <;> exact ⟨rfl, rfl, by decide, by decide, rfl⟩

theorem dropWhile_cons_false {p : Char → Bool} {a : Char} {l : List Char}
    (h : p a = false) : (a :: l).dropWhile p = a :: l := by
  simp [List.dropWhile_cons, h]

/-- A character list whose first and last characters are not whitespace is
unchanged by `pyStripL`. -/
theorem pyStripL_sandwich (a b : Char) (l : List Char)
    (ha : a.isWhitespace = false) (hb : b.isWhitespace = false) :
    pyStripL (a :: (l ++ [b])) = a :: (l ++ [b]) := by
  unfold pyStripL
  rw [dropWhile_cons_false ha]
  have hrev : (a :: (l ++ [b])).reverse = b :: (l.reverse ++ [a]) := by simp
  rw [hrev, dropWhile_cons_false hb]
  simp

theorem flatMap_singleton_id {f : Char → List Char} :
    ∀ l : List Char, (∀ c ∈ l, f c = [c]) → l.flatMap f = l := by
  intro l h
  induction l with
  | nil => rfl
  | cons a l ih =>
    rw [List.flatMap_cons, h a (by simp), ih fun c hc => h c (by simp [hc])]
    rfl

theorem takeWhile_all {p : Char → Bool} :
    ∀ l : List Char, (∀ c ∈ l, p c = true) → l.takeWhile p = l := by
  intro l h
  induction l with
  | nil => rfl
  | cons a l ih =>
    rw [List.takeWhile_cons, h a (by simp)]
    simp [ih fun c hc => h c (by simp [hc])]

/-- A non-empty all-digit list is its own leftmost digit run. -/
theorem firstDigitRunL_all_digits (a : Char) (l : List Char)
    (ha : a.isDigit = true) (hl : ∀ c ∈ l, c.isDigit = true) :
    firstDigitRunL (a :: l) = some (a :: l) := by
  unfold firstDigitRunL
  rw [ha]
  simp [takeWhile_all l hl]

/-- Appending `n` zero digits multiplies the parsed value by `10 ^ n`. -/
theorem digitsToNat_append_zeros (l : List Char) (n : Nat) :
    digitsToNat (l ++ List.replicate n '0') = digitsToNat l * 10 ^ n := by
  induction n generalizing l with
  | zero => simp [digitsToNat]
  | succ n ih =>
    rw [List.replicate_succ, List.append_cons, ih]
    have h0 : digitsToNat (l ++ ['0']) = digitsToNat l * 10 := by
      have : ('0'.toNat - 48) = 0 := rfl
      simp [digitsToNat, List.foldl_append, this]
    rw [h0]
    ring

theorem normalizeViewsL_append (xs ys : List Char) :
    normalizeViewsL (xs ++ ys) = normalizeViewsL xs ++ normalizeViewsL ys := by
  simp [normalizeViewsL, List.map_append]

theorem normalizeViewsL_digits (ds : List (Fin 10)) :
    normalizeViewsL (ds.map decimalDigit) = ds.map decimalDigit := by
  induction ds with
  | nil => rfl
  | cons d ds ih =>
    have hp := decimalDigit_props d
    simp only [List.map_cons, normalizeViewsL, List.flatMap_cons] at ih ⊢
    rw [hp.2.1, if_neg hp.2.2.1, if_neg hp.2.2.2.1]
    simpa using ih

/-- Tier-1 parsing of a counter text that is a plain decimal numeral
followed by a suffix character whose normalization is `n` zeros: the result
is the numeral's value times `10 ^ n`. -/
theorem toiTier1_numeral_suffix (ds : List (Fin 10)) (hne : ds ≠ [])
    (sc : Char) (n : Nat) (hws : sc.isWhitespace = false)
    (hnorm : normalizeViewsL [sc] = List.replicate n '0') :
    toiTier1 ⟨ds.map decimalDigit ++ [sc]⟩ =
      some (digitsToNat (ds.map decimalDigit) * 10 ^ n) := by
  obtain ⟨d, ds', rfl⟩ := List.exists_cons_of_ne_nil hne
  have hp := decimalDigit_props d
  have hshape : (d :: ds').map decimalDigit ++ [sc]
      = decimalDigit d :: (ds'.map decimalDigit ++ [sc]) := by simp
  have hstrip : pyStripL ((d :: ds').map decimalDigit ++ [sc])
      = (d :: ds').map decimalDigit ++ [sc] := by
    rw [hshape]
    exact pyStripL_sandwich _ _ _ hp.1 hws
  have hnorm2 : normalizeViewsL ((d :: ds').map decimalDigit ++ [sc])
      = (d :: ds').map decimalDigit ++ List.replicate n '0' := by
    rw [normalizeViewsL_append, normalizeViewsL_digits, hnorm]
  have hrun : firstDigitRunL ((d :: ds').map decimalDigit ++ List.replicate n '0')
      = some ((d :: ds').map decimalDigit ++ List.replicate n '0') := by
    rw [show (d :: ds').map decimalDigit ++ List.replicate n '0'
        = decimalDigit d :: (ds'.map decimalDigit ++ List.replicate n '0') by simp]
    exact firstDigitRunL_all_digits _ _ hp.2.2.2.2 (by
      intro c hc
      rcases List.mem_append.1 hc with hc | hc
      · obtain ⟨e, _he, rfl⟩ := List.mem_map.1 hc
        exact (decimalDigit_props e).2.2.2.2
      · rw [List.eq_of_mem_replicate hc]
        rfl)
  show (firstDigitRunL (normalizeViewsL
      (pyStripL ((d :: ds').map decimalDigit ++ [sc])))).map digitsToNat = _
  rw [hstrip, hnorm2, hrun, Option.map_some', digitsToNat_append_zeros]

/-- Counterexample to C5 as stated: the counter text `"1.5k"` contains the
number 1.5 with suffix `k`, but normalization is textual — `"1.5k"` becomes
`"1.5000"` — and digit extraction takes the first digit run, so the result
is 1, not 1500.  Likewise `"5 of 12k"` contains the number 12 with suffix
`k` but yields 5, and `"2.5m"` yields 2, not 2500000. -/
theorem c5_counterexample :
    toiTier1 "1.5k" = some 1 ∧ (1 : Nat) ≠ 1500 ∧
    toiTier1 "5 of 12k" = some 5 ∧ (5 : Nat) ≠ 12000 ∧
    toiTier1 "2.5m" = some 2 ∧ (2 : Nat) ≠ 2500000 := by
  refine ⟨by decide, by decide, by decide, by decide, by decide, by decide⟩

/-- C5 as amended: the unit-suffix normalization is equivalent to
multiplication only when the stripped counter text is exactly an integer
numeral followed by the suffix: for every non-empty digit string `d`,
tier 1 maps `d ++ "k"` to `value(d) * 1000` and `d ++ "m"` to
`value(d) * 1000000`.  For texts with other characters (a decimal point, or
digits before the suffixed number) the substitution is textual, not
arithmetic, and the first digit run of the rewritten text wins. -/
theorem c5_suffix_multiplies_plain_numeral (ds : List (Fin 10)) (hne : ds ≠ []) :
    toiTier1 ⟨ds.map decimalDigit ++ ['k']⟩ =
      some (digitsToNat (ds.map decimalDigit) * 1000) ∧
    toiTier1 ⟨ds.map decimalDigit ++ ['m']⟩ =
      some (digitsToNat (ds.map decimalDigit) * 1000000) := by
  constructor
  · have h := toiTier1_numeral_suffix ds hne 'k' 3 (by decide) (by decide)
    simpa using h
  · have h := toiTier1_numeral_suffix ds hne 'm' 6 (by decide) (by decide)
    simpa using h

/-- Witness for the amended C5 at the numeral `12`: `"12k"` parses to
12000 and `"12m"` to 12000000. -/
theorem c5_witness :
    toiTier1 ⟨[(1 : Fin 10), 2].map decimalDigit ++ ['k']⟩ =
      some (digitsToNat ([(1 : Fin 10), 2].map decimalDigit) * 1000) ∧
    digitsToNat ([(1 : Fin 10), 2].map decimalDigit) * 1000 = 12000 :=
  ⟨(c5_suffix_multiplies_plain_numeral [(1 : Fin 10), 2] (by decide)).1,
   by decide⟩

/-! ## Claim C6: id and url of persisted records -/

/-- Counterexample to C6 as stated: for the article URL
`".../india/articleshow/"` (a URL ending in `/`, whose href contains the
`/articleshow/` marker used by link discovery), the derived id
`url.split('/')[-1].split('.')[0]` is the empty string, yet `parse_article`
still emits a record — it has no failure path for an unresolvable id — and
`_save_raw_data` persists it under the file name `".json"`. -/
theorem c6_counterexample :
    toiArticleId "https://timesofindia.indiatimes.com/india/articleshow/" = "" ∧
    (toiParse (some blankTitleToiPage)
      "https://timesofindia.indiatimes.com/india/articleshow/"
      0 0 "t").isSome = true ∧
    (toiParseArticle blankTitleToiPage
      "https://timesofindia.indiatimes.com/india/articleshow/"
      0 0 "t").id = "" ∧
    savedFilenames [toiParseArticle blankTitleToiPage
      "https://timesofindia.indiatimes.com/india/articleshow/"
      0 0 "t"] = [".json"] := by
  refine ⟨by decide, rfl, by decide, by decide⟩

/-- C6 as amended: every record an adapter emits carries `id` and `url`
keys — the `url` field always equals the article URL passed to the parser
(hence non-empty whenever the crawler requested a non-empty URL) and the
`id` field always equals the adapter's URL-derived id — but that id may be
the empty string (for example for a URL ending in `/`), and the adapter
emits and persists the record all the same instead of failing the parse. -/
theorem c6_emitted_record_fields (soupT : Option ToiPage) (soupH : Option HtPage)
    (url1 url2 : String) (r2 r3 s2 s3 : Int) (now : String) (a b : Article)
    (ha : toiParse soupT url1 r2 r3 now = some a)
    (hb : htParse soupH url2 s2 s3 now = some b) :
    a.url = url1 ∧ a.id = toiArticleId url1 ∧ (url1 ≠ "" → a.url ≠ "") ∧
    b.url = url2 ∧ b.id = htArticleId url2 ∧ (url2 ≠ "" → b.url ≠ "") := by
  obtain ⟨p, rfl, rfl⟩ : ∃ p, soupT = some p ∧ a = toiParseArticle p url1 r2 r3 now := by
    cases soupT with
    | none => simp [toiParse] at ha
    | some p => exact ⟨p, rfl, by simpa [toiParse] using ha.symm⟩
  obtain ⟨q, rfl, rfl⟩ : ∃ q, soupH = some q ∧ b = htParseArticle q url2 s2 s3 now := by
    cases soupH with
    | none => simp [htParse] at hb
    | some q => exact ⟨q, rfl, by simpa [htParse] using hb.symm⟩
  exact ⟨rfl, rfl, fun h => h, rfl, rfl, fun h => h⟩

/-- Witness for the amended C6 on concrete pages and URLs. -/
theorem c6_witness :
    (toiParseArticle blankTitleToiPage
      "https://timesofindia.indiatimes.com/india/articleshow/77.cms"
      0 0 "t").url = "https://timesofindia.indiatimes.com/india/articleshow/77.cms" ∧
    (toiParseArticle blankTitleToiPage
      "https://timesofindia.indiatimes.com/india/articleshow/77.cms"
      0 0 "t").id =
      toiArticleId "https://timesofindia.indiatimes.com/india/articleshow/77.cms" := by
  have h := c6_emitted_record_fields (some blankTitleToiPage)
    (some { tHdg1 := none, tHeadline := none, tH1 := none, tOgTitle := none,
            cStoryDetail := none, cStoryDetails := none, cArticleBody := none,
            cItempropBody := none, dDateTime := none, dArticleTime := none,
            dPubTime := none, vViewCount := none })
    "https://timesofindia.indiatimes.com/india/articleshow/77.cms"
    "https://www.hindustantimes.com/story-42.html" 0 0 0 0 "t"
    _ _ rfl rfl
  exact ⟨h.1, h.2.1⟩

/-! ## Claims C7 and C10: ranking by views -/

/-- Descending order on the `views` key. -/
def viewsDesc (a b : JRec) : Prop := viewsKey b ≤ viewsKey a

theorem insertByViews_perm (x : JRec) (l : List JRec) :
    List.Perm (insertByViews x l) (x :: l) := by
  induction l with
  | nil => rfl
  | cons y ys ih =>
    unfold insertByViews
    split
    · rfl
    · exact (List.Perm.cons y ih).trans (List.Perm.swap x y ys)

theorem sortArticlesByViews_perm (l : List JRec) :
    List.Perm (sortArticlesByViews l) l := by
  induction l with
  | nil => rfl
  | cons x xs ih =>
    exact (insertByViews_perm x (sortArticlesByViews xs)).trans (ih.cons x)

theorem insertByViews_pairwise (x : JRec) (l : List JRec)
    (h : l.Pairwise viewsDesc) : (insertByViews x l).Pairwise viewsDesc := by
  induction l with
  | nil => simp [insertByViews, List.pairwise_singleton]
  | cons y ys ih =>
    rw [List.pairwise_cons] at h
    unfold insertByViews
    split
    · rename_i hge
      rw [List.pairwise_cons]
      refine ⟨?_, List.pairwise_cons.2 h⟩
      intro z hz
      rcases List.mem_cons.1 hz with rfl | hz
      · exact hge
      · exact le_trans (h.1 z hz) hge
    · rename_i hlt
      rw [List.pairwise_cons]
      refine ⟨?_, ih h.2⟩
      intro z hz
      have hz' := (insertByViews_perm x ys).mem_iff.1 hz
      rcases List.mem_cons.1 hz' with rfl | hz'
      · exact le_of_not_le hlt
      · exact h.1 z hz'

theorem sortArticlesByViews_pairwise (l : List JRec) :
    (sortArticlesByViews l).Pairwise viewsDesc := by
  induction l with
  | nil => exact List.Pairwise.nil
  | cons x xs ih => exact insertByViews_pairwise x _ ih

/-- Inserting never reorders the records of any fixed key value. -/
theorem filter_insertByViews (x : JRec) (v : Int) (l : List JRec) :
    (insertByViews x l).filter (fun r => viewsKey r == v) =
      (x :: l).filter (fun r => viewsKey r == v) := by
  induction l with
  | nil => rfl
  | cons y ys ih =>
    unfold insertByViews
    split
    · rfl
    · rename_i hlt
      have hxy : ¬(viewsKey x = v ∧ viewsKey y = v) := by
        rintro ⟨hx, hy⟩
        exact hlt (by rw [hx, hy])
      by_cases hx : viewsKey x = v <;> by_cases hy : viewsKey y = v
      · exact absurd ⟨hx, hy⟩ hxy
      · simp [List.filter_cons, hx, hy, ih]
      · simp [List.filter_cons, hx, hy, ih]
      · simp [List.filter_cons, hx, hy, ih]

/-- The sort is stable: records of any fixed key value keep their input
order. -/
theorem filter_sortArticlesByViews (v : Int) (l : List JRec) :
    (sortArticlesByViews l).filter (fun r => viewsKey r == v) =
      l.filter (fun r => viewsKey r == v) := by
  induction l with
  | nil => rfl
  | cons x xs ih =>
    rw [show sortArticlesByViews (x :: xs)
        = insertByViews x (sortArticlesByViews xs) from rfl,
      filter_insertByViews, List.filter_cons, List.filter_cons, ih]

/-- Sorting an already descending-sorted list is the identity. -/
theorem sortArticlesByViews_of_pairwise (l : List JRec)
    (h : l.Pairwise viewsDesc) : sortArticlesByViews l = l := by
  induction l with
  | nil => rfl
  | cons x xs ih =>
    rw [List.pairwise_cons] at h
    rw [show sortArticlesByViews (x :: xs)
        = insertByViews x (sortArticlesByViews xs) from rfl, ih h.2]
    cases xs with
    | nil => rfl
    | cons y ys =>
      unfold insertByViews
      rw [if_pos (show viewsKey x ≥ viewsKey y from h.1 y (by simp))]

/-- C7: `get_top_articles` (= `sort_articles_by_views` truncated) returns
the records in descending `views` order, stably (records of any fixed key
keep their input order), as a truncated permutation of the input; on views
`[50, 200, 10]` it returns them as `[200, 50, 10]`; it is deterministic (a
pure function) and applying it twice equals applying it once. -/
theorem c7_rank_by_views_sorted_stable (l : List JRec) (limit : Nat) (v : Int) :
    getTopArticles limit l = (sortArticlesByViews l).take limit ∧
    List.Perm (sortArticlesByViews l) l ∧
    (sortArticlesByViews l).Pairwise viewsDesc ∧
    (getTopArticles limit l).Pairwise viewsDesc ∧
    (sortArticlesByViews l).filter (fun r => viewsKey r == v) =
      l.filter (fun r => viewsKey r == v) ∧
    getTopArticles 10 [⟨some 50, "a"⟩, ⟨some 200, "b"⟩, ⟨some 10, "c"⟩] =
      [⟨some 200, "b"⟩, ⟨some 50, "a"⟩, ⟨some 10, "c"⟩] ∧
    getTopArticles limit (getTopArticles limit l) = getTopArticles limit l := by
  have hpair := sortArticlesByViews_pairwise l
  have htake : (getTopArticles limit l).Pairwise viewsDesc :=
    List.Pairwise.sublist (List.take_sublist limit _) hpair
  refine ⟨rfl, sortArticlesByViews_perm l, hpair, htake,
    filter_sortArticlesByViews v l, by decide, ?_⟩
  show (sortArticlesByViews ((sortArticlesByViews l).take limit)).take limit
      = (sortArticlesByViews l).take limit
  have htake' : ((sortArticlesByViews l).take limit).Pairwise viewsDesc := htake
  rw [sortArticlesByViews_of_pairwise _ htake', List.take_take, Nat.min_self]

/-- C10: the sort key function is total on records without a `views` entry
— `x.get('views', 0)` yields 0 for them — and in the sorted output every
record after a record lacking `views` has key at most 0, so records with
positive views all come before it. -/
theorem c10_missing_views_sort_after (s : String) (l xs ys : List JRec)
    (r z : JRec) (hsort : sortArticlesByViews l = xs ++ r :: ys)
    (hr : r.viewsEntry = none) (hz : z ∈ ys) :
    viewsKey { viewsEntry := none, payload := s } = 0 ∧ viewsKey z ≤ 0 := by
  refine ⟨rfl, ?_⟩
  have hp := sortArticlesByViews_pairwise l
  rw [hsort] at hp
  have hp2 : (r :: ys).Pairwise viewsDesc :=
    List.Pairwise.sublist (List.sublist_append_right xs (r :: ys)) hp
  have hrz : viewsKey z ≤ viewsKey r := List.rel_of_pairwise_cons hp2 hz
  have hrk : viewsKey r = 0 := by simp [viewsKey, hr]
  rw [hrk] at hrz
  exact hrz

/-- Witness for C10: in `[{no views}, {views -3}, {views 5}]` the sorted
output is `[{5}, {no views}, {-3}]`, so the record after the `views`-less
record indeed has key at most 0. -/
theorem c10_witness :
    viewsKey { viewsEntry := none, payload := "w" } = 0 ∧
    viewsKey { viewsEntry := some (-3), payload := "z" } ≤ 0 :=
  c10_missing_views_sort_after "w"
    [⟨none, "x"⟩, ⟨some (-3), "z"⟩, ⟨some 5, "y"⟩]
    [⟨some 5, "y"⟩] [⟨some (-3), "z"⟩] ⟨none, "x"⟩ ⟨some (-3), "z"⟩
    (by decide) rfl (by decide)

/-! ## Claim C8: the K/M abbreviation formatter -/

/-- C8: the view-count formatter renders every value below 1000 as its
plain decimal string, every value in `[1000, 1000000)` as a one-decimal
number of thousands followed by `K`, and every value `≥ 1000000` as a
one-decimal number of millions followed by `M`; in particular
`999 ↦ "999"`, `1500 ↦ "1.5K"` and `2500000 ↦ "2.5M"`. -/
theorem c8_format_views_thresholds :
    (∀ v : Nat, v < 1000 → formatViews v = toString v) ∧
    (∀ v : Nat, 1000 ≤ v → v < 1000000 →
      ∃ a b : Nat, b < 10 ∧
        formatViews v = toString a ++ "." ++ toString b ++ "K") ∧
    (∀ v : Nat, 1000000 ≤ v →
      ∃ a b : Nat, b < 10 ∧
        formatViews v = toString a ++ "." ++ toString b ++ "M") ∧
    formatViews 999 = "999" ∧ formatViews 1500 = "1.5K" ∧
    formatViews 2500000 = "2.5M" := by
  refine ⟨?_, ?_, ?_, by decide, by decide, by decide⟩
  · intro v h
    have h1 : ¬ v ≥ 1000000 := by omega
    have h2 : ¬ v ≥ 1000 := by omega
    simp [formatViews, h1, h2]
  · intro v h1 h2
    have hM : ¬ v ≥ 1000000 := by omega
    have hK : v ≥ 1000 := h1
    refine ⟨oneDecimalOfDiv v 1000 / 10, oneDecimalOfDiv v 1000 % 10,
      Nat.mod_lt _ (by norm_num), ?_⟩
    simp [formatViews, hM, hK, oneDecimalStr]
  · intro v h1
    refine ⟨oneDecimalOfDiv v 1000000 / 10, oneDecimalOfDiv v 1000000 % 10,
      Nat.mod_lt _ (by norm_num), ?_⟩
    simp [formatViews, h1, oneDecimalStr]

/-- Witness for C8, one input per threshold branch. -/
theorem c8_witness :
    formatViews 500 = toString 500 ∧
    (∃ a b : Nat, b < 10 ∧
      formatViews 1500 = toString a ++ "." ++ toString b ++ "K") ∧
    (∃ a b : Nat, b < 10 ∧
      formatViews 2500000 = toString a ++ "." ++ toString b ++ "M") :=
  ⟨c8_format_views_thresholds.1 500 (by decide),
   c8_format_views_thresholds.2.1 1500 (by decide) (by decide),
   c8_format_views_thresholds.2.2.1 2500000 (by decide)⟩

/-! ## Claim C9: per-site attempt cap -/

/-- C9: the URLs whose parse is attempted are exactly the first
`max_articles` discovered links, `min(links_found, max_articles)` of them;
the records returned are the successful parses of those URLs, so their
number is at most the bound and can be smaller (a failed parse just
advances to the next URL — on a two-link crawl whose parses all fail, two
parses are attempted and zero records come back). -/
theorem c9_crawl_attempt_bound :
    (∀ (urls : List String) (maxArticles : Nat),
      (attemptedUrls urls maxArticles).length = min urls.length maxArticles) ∧
    (∀ (urls : List String) (maxArticles : Nat),
      attemptedUrls urls maxArticles = urls.take maxArticles) ∧
    (∀ {α : Type} (parseFn : String → Option α) (urls : List String)
      (maxArticles : Nat),
      crawlArticles parseFn urls maxArticles =
        (attemptedUrls urls maxArticles).filterMap parseFn) ∧
    (∀ {α : Type} (parseFn : String → Option α) (urls : List String)
      (maxArticles : Nat),
      (crawlArticles parseFn urls maxArticles).length ≤
        min urls.length maxArticles) ∧
    crawlArticles (fun _ => (none : Option Nat)) ["u1", "u2"] 2 = [] ∧
    (attemptedUrls ["u1", "u2"] 2).length = 2 := by
  have hatt : ∀ (urls : List String) (maxArticles : Nat),
      attemptedUrls urls maxArticles = urls.take maxArticles := by
    intro urls maxA
    unfold attemptedUrls
    split
    · rename_i h
      simp [h]
    · rfl
  have hlen : ∀ (urls : List String) (maxArticles : Nat),
      (attemptedUrls urls maxArticles).length = min urls.length maxArticles := by
    intro urls maxA
    rw [hatt, List.length_take, Nat.min_comm]
  have hcrawl : ∀ {α : Type} (parseFn : String → Option α)
      (urls : List String) (maxArticles : Nat),
      crawlArticles parseFn urls maxArticles =
        (attemptedUrls urls maxArticles).filterMap parseFn := by
    intro α f urls maxA
    unfold crawlArticles attemptedUrls
    split
    · rfl
    · rfl
  refine ⟨hlen, hatt, hcrawl, ?_, by decide, by decide⟩
  intro α f urls maxA
  rw [hcrawl, ← hlen urls maxA]
  exact List.length_filterMap_le f (attemptedUrls urls maxA)
